import Mathlib

/-!
Shallow embedding of `md2conf.py` (markdown-to-Confluence upload tool).

The tool's HTML scraping is done with regular expressions from Python's `re`
module (an external library).  We represent the rendered HTML body by the
features those fixed regular expressions extract from it: the list of
`<hN>...</hN>` heading texts, the list of `<a href="#...">` intra-document
links, and the list of `<img src="..."/>` image source paths.  The loops and
decisions of the Python code are translated directly; HTTP calls are recorded
as an emitted list of `ApiCall` values and server responses are taken as
inputs (success is assumed for the transport, which the tool treats as a
black box via `raise_for_status`).
-/

namespace Md2Conf

/-- An intra-document link `<a href="#...">text</a>` as extracted by the
regex `<a href="(#.+?)">(.+?)</a>` (md2conf.py line 290/293): `ref` is the
`href` value (starts with `#`), `alt` is the visible text. -/
structure Link where
  ref : String
  alt : String
deriving DecidableEq, Repr

/-- The rendered HTML body, represented by what the tool's fixed regular
expressions extract from it: heading texts (`<h\d+>(.*?)</h\d+>`),
intra-document links, and image `src` paths (`<img(.*?)/>` + `src="(.*?)"`). -/
structure Body where
  headers : List String
  links : List Link
  imgs : List String
deriving DecidableEq, Repr

/-- Remote page information, from `get_page` (md2conf.py lines 134-190):
the page id, its current version number, and its content properties
(property key mapped to that property's own remote version number). -/
structure PageInfo where
  id : String
  version : Nat
  properties : List (String × Nat)
deriving DecidableEq, Repr

/-- The run configuration, from the parsed CLI arguments / globals
(md2conf.py lines 83-100).  `properties` models the Python dict
`PROPERTIES = dict(ARGS.properties)` as an association list;
`attachments` is `None` when `-t` was not given. -/
structure Config where
  delete : Bool
  simulate : Bool
  ancestor : Option String
  properties : List (String × String)
  attachments : Option (List String)
  labels : List String
  markdownSource : String
  version : Int
deriving Repr

/-- A state-changing REST call issued by the tool.  (GET lookups such as
`get_page` and `get_attachment` are modelled by the inputs instead.) -/
inductive ApiCall where
  | createPage (title : String)
  | updatePage (id : String) (versionNumber : Nat)
  | updateProperty (id : String) (key : String) (versionNumber : Nat)
  | deletePage (id : String)
  | uploadAttachment (id : String) (filename : String)
deriving DecidableEq, Repr

/-- A Python exception escaping the code (uncaught). -/
inductive PyError where
  | keyError
  | nameError
deriving DecidableEq, Repr

/-- How a run terminates: fall through normally (implicit exit 0),
an explicit `sys.exit`, or an uncaught Python exception. -/
inductive Term where
  | normal
  | exited (code : Nat)
  | pyError (e : PyError)
deriving DecidableEq, Repr

/-- A run: the REST calls issued, in order, and how the process ended. -/
structure RunResult where
  calls : List ApiCall
  term : Term
deriving DecidableEq, Repr

/-! ### Small Python-semantics helpers -/

/-- Python dict assignment `m[k] = v` on an association-list model:
overwrite the binding if the key is present, otherwise append it
(dicts preserve insertion order). -/
def assocSet {α : Type} (m : List (String × α)) (k : String) (v : α) :
    List (String × α) :=
  if (m.lookup k).isSome then
    m.map (fun p => if p.1 = k then (k, v) else p)
  else
    m ++ [(k, v)]

/-- `''.join(s.split())`: remove every whitespace character
(Python `str.split()` splits on whitespace runs, `join` glues the parts). -/
def removeWhitespace (s : String) : String :=
  ⟨s.data.filter (fun c => !c.isWhitespace)⟩

/-- Does `s` begin with `p`?  (Stated over the character lists.) -/
def strStartsWith (s p : String) : Bool :=
  p.data.isPrefixOf s.data

/-- One fuel-indexed step list for Python `str.replace`: substitute `rep`
for each non-overlapping, left-to-right occurrence of `pat` (`pat` assumed
non-empty; the fuel is instantiated to the list's length, which always
suffices since each step consumes at least one character). -/
def replaceFuel (pat rep : List Char) : Nat → List Char → List Char
  | 0, s => s
  | _ + 1, [] => []
  | fuel + 1, c :: rest =>
    if pat.isPrefixOf (c :: rest) then
      rep ++ replaceFuel pat rep fuel (rest.drop (pat.length - 1))
    else
      c :: replaceFuel pat rep fuel rest

/-- Python `s.replace(pat, rep)` for a non-empty `pat` (the only uses here
are the patterns `"%d"` and `"https://"`). -/
def pyReplace (s pat rep : String) : String :=
  ⟨replaceFuel pat.data rep.data s.data.length s.data⟩

/-- Python `fmt % n` for the postfix format strings used here (`"_%d"`):
substitute the decimal rendering of `n` for `%d`. -/
def pyFormatNat (fmt : String) (n : Nat) : String :=
  pyReplace fmt "%d" (toString n)

/-- `os.path.basename`: the component after the last `/`. -/
def basename (p : String) : String :=
  ⟨p.data.foldl (fun acc c => if c = '/' then [] else acc ++ [c]) []⟩

/-- `os.path.join(dir, p)`: `p` itself when `p` is absolute, else
`dir ++ "/" ++ p`. -/
def joinPath (dir p : String) : String :=
  if strStartsWith p "/" then p else dir ++ "/" ++ p

/-- Does `pat` occur as a contiguous substring of `s` (character lists)? -/
def containsSub (pat : List Char) : List Char → Bool
  | [] => pat.isEmpty
  | c :: rest => pat.isPrefixOf (c :: rest) || containsSub pat rest

/-- Truthiness of `re.search('http.*', s)` (md2conf.py lines 210, 528):
the pattern matches exactly when `"http"` occurs as a substring of `s`,
anywhere — it is not anchored to the start. -/
def matchesHttp (s : String) : Bool :=
  containsSub "http".data s.data

/-! ### Credentials / organisation resolution (md2conf.py lines 85-87) -/

/-- The environment variables the tool reads (`None` = unset). -/
structure Environ where
  confluence_username : Option String
  confluence_api_key : Option String
  confluence_orgname : Option String
deriving DecidableEq, Repr

/-- The corresponding CLI flags (`None` = not given). -/
structure CredArgs where
  username : Option String
  apikey : Option String
  orgname : Option String
deriving DecidableEq, Repr

/-- `os.getenv(name, default)`: the environment value when the variable is
set, otherwise the supplied default. -/
def getenvOr (env : Option String) (dflt : Option String) : Option String :=
  match env with
  | some v => some v
  | none => dflt

/-- `USERNAME = os.getenv('CONFLUENCE_USERNAME', ARGS.username)` (line 85). -/
def USERNAME (env : Environ) (args : CredArgs) : Option String :=
  getenvOr env.confluence_username args.username

/-- `API_KEY = os.getenv('CONFLUENCE_API_KEY', ARGS.apikey)` (line 86). -/
def API_KEY (env : Environ) (args : CredArgs) : Option String :=
  getenvOr env.confluence_api_key args.apikey

/-- `ORGNAME = os.getenv('CONFLUENCE_ORGNAME', ARGS.orgname)` (line 87). -/
def ORGNAME (env : Environ) (args : CredArgs) : Option String :=
  getenvOr env.confluence_orgname args.orgname

/-! ### Base API URL (md2conf.py lines 117-127) -/

/-- The base API URL computed from a (present) organisation name and the
no-SSL toggle.  Translated literally from lines 117-127: when `NOSSL` is
set the code evaluates `CONFLUENCE_API_URL.replace('https://', 'http://')`
but discards the result (Python strings are immutable and the return value
is not assigned), so the bound value is unchanged. -/
def CONFLUENCE_API_URL (orgname : String) (nossl : Bool) : String :=
  let url :=
    if orgname.contains '.' then
      "https://" ++ orgname
    else
      "https://" ++ (orgname ++ ".atlassian.net/wiki")
  if nossl then
    let _discarded := pyReplace url "https://" "http://"
    url
  else
    url

/-! ### Local-reference rewriter (md2conf.py lines 236-309) -/

/-- Modelled from the spec: the `slug` helper used at lines 271 and 276 is
defined in this repository's conversion module, which is not among the
provided source files.  Per the spec ("For each heading, compute a slug",
with the dialect's anchor conventions), it deterministically derives an
anchor fragment from the heading text: lowercased when the flag is set,
with spaces turned into the anchor separator.  Every claim below uses only
that it is a deterministic function of its arguments. -/
def slug (s : String) (lowercase : Bool) : String :=
  let t := if lowercase then s.data.map Char.toLower else s.data
  ⟨t.map (fun c => if c = ' ' then '-' else c)⟩

/-- `ref_prefixes` (line 246): anchor prefix per markdown source dialect. -/
def ref_prefixes : List (String × String) :=
  [("bitbucket", "#markdown-header-")]

/-- `ref_postfixes` (line 249): duplicate-anchor postfix format per dialect. -/
def ref_postfixes : List (String × String) :=
  [("bitbucket", "_%d")]

/-- The header loop of `add_local_refs` (lines 270-288), building
`headers_map` (anchor key to in-page fragment value) and `headers_count`
(per-key collision counter).  Translated literally:
* `key = ref_prefix + slug(header, True)`;
* `value` is `''.join(header.split())` when `VERSION == 1`, `slug(header,
  False)` when `VERSION == 2`, and otherwise never assigned — reading it
  then raises `NameError`;
* on a collision, `alt_count = headers_count[key]` (a `KeyError` when the
  colliding key was itself introduced as an `alt_key`), the new entry is
  `key + (ref_postfix % alt_count) ↦ value + '.' + alt_count`, and the
  counter is bumped. -/
def buildHeadersMap (rpre rpost : String) (version : Int) :
    List String → List (String × String) → List (String × Nat) →
    Except PyError (List (String × String) × List (String × Nat))
  | [], m, c => .ok (m, c)
  | header :: rest, m, c =>
    let key := rpre ++ slug header true
    match (if version = 1 then some (removeWhitespace header)
           else if version = 2 then some (slug header false)
           else none) with
    | none => .error .nameError
    | some value =>
      if (m.lookup key).isSome then
        match c.lookup key with
        | none => .error .keyError
        | some altCount =>
          let altKey := key ++ pyFormatNat rpost altCount
          let altValue := value ++ "." ++ toString altCount
          buildHeadersMap rpre rpost version rest
            (assocSet m altKey altValue) (assocSet c key (altCount + 1))
      else
        buildHeadersMap rpre rpost version rest
          (assocSet m key value) (assocSet c key 1)

/-- The link loop of `add_local_refs` (lines 290-307).  For each extracted
link, `result_ref = headers_map[ref]` — a `KeyError` when the target anchor
is not a key of the map.  When `result_ref` is truthy (non-empty) the link
is rewritten in the html to an absolute URL (so it is no longer an
intra-document link and is dropped from the list); a falsy `result_ref`
leaves the link untouched. -/
def resolveLinks (m : List (String × String)) :
    List Link → Except PyError (List Link)
  | [] => .ok []
  | l :: rest =>
    match m.lookup l.ref with
    | none => .error .keyError
    | some v =>
      if v ≠ "" then
        resolveLinks m rest
      else
        (resolveLinks m rest).map (l :: ·)

/-- `add_local_refs` (lines 236-309), on the extracted headers and links.
If the markdown source dialect has no entry in `ref_prefixes` or
`ref_postfixes`, the html is returned unchanged with a warning (line 254).
If the document has no headings, `if headers:` is falsy and the rest of the
pass — including all link processing — is skipped (line 266). -/
def add_local_refs_links (markdownSource : String) (version : Int)
    (headers : List String) (links : List Link) :
    Except PyError (List Link) :=
  match ref_prefixes.lookup markdownSource,
        ref_postfixes.lookup markdownSource with
  | some rpre, some rpost =>
    if headers.isEmpty then
      .ok links
    else
      match buildHeadersMap rpre rpost version headers [] [] with
      | .error e => .error e
      | .ok (m, _) => resolveLinks m links
  | _, _ => .ok links

/-- `add_local_refs` on a whole body: only the links change (image tags and
headings are untouched by this pass). -/
def add_local_refs (markdownSource : String) (version : Int) (body : Body) :
    Except PyError Body :=
  (add_local_refs_links markdownSource version body.headers body.links).map
    (fun ls => { body with links := ls })

/-! ### Attachment uploader (md2conf.py lines 493-558) -/

/-- `upload_attachment(page_id, file, comment)` (lines 519-558).
`fileExists` models `os.path.isfile`.  Returns the function's boolean
result together with the REST calls it issues:
* line 528: `if re.search('http.*', file): return False` — any path
  containing `"http"` as a substring is treated as remote and skipped;
* line 534: a non-existent local file is logged and skipped
  (`return False`), never a process failure;
* otherwise the file is posted as an attachment (to the replace-data URL
  when `get_attachment` finds one of the same filename, to the create URL
  otherwise — both are one POST of the file, recorded identically here). -/
def upload_attachment (fileExists : String → Bool) (pageId file : String) :
    Bool × List ApiCall :=
  if matchesHttp file then
    (false, [])
  else if !fileExists file then
    (false, [])
  else
    (true, [.uploadAttachment pageId (basename file)])

/-- The attachment-download path an image `src` is rewritten to
(lines 211-216). -/
def downloadPath (apiUrl : String) (pageId : String) (base : String) :
    String :=
  if List.isSuffixOf "/wiki".data apiUrl.data then
    "/wiki/download/attachments/" ++ pageId ++ "/" ++ base
  else
    "/download/attachments/" ++ pageId ++ "/" ++ base

/-- `add_images(page_id, html)` (lines 194-217): for every `<img .../>` tag,
upload the file at `os.path.join(source_folder, rel_path)` as an
attachment, and — when `rel_path` does not match `http.*` — rewrite the
`src` in the html to the attachment-download path. -/
def add_images (fileExists : String → Bool) (apiUrl sourceFolder : String)
    (pageId : String) (body : Body) : Body × List ApiCall :=
  let calls := body.imgs.flatMap (fun rel =>
    (upload_attachment fileExists pageId (joinPath sourceFolder rel)).2)
  let imgs := body.imgs.map (fun rel =>
    if matchesHttp rel then rel else downloadPath apiUrl pageId (basename rel))
  ({ body with imgs := imgs }, calls)

/-- `add_attachments(page_id, files)` (lines 221-233): upload each listed
file, resolved relative to the markdown file's folder.  `ATTACHMENTS` is
`None` when the `-t` flag is absent; `if files:` skips both `None` and an
empty list. -/
def add_attachments (fileExists : String → Bool) (sourceFolder : String)
    (pageId : String) (files : Option (List String)) : List ApiCall :=
  match files with
  | none => []
  | some fs => fs.flatMap (fun f =>
      (upload_attachment fileExists pageId (joinPath sourceFolder f)).2)

/-! ### Page reconciler (md2conf.py lines 312-490, 571-644) -/

/-- Python truthiness of the `ATTACHMENTS` value (`None` and `[]` falsy). -/
def truthyOptList : Option (List String) → Bool
  | none => false
  | some l => !l.isEmpty

/-- `none` error means the call chain completed; `some e` means the Python
exception `e` escaped before the remaining calls could be issued. -/
def termOfErr : Option PyError → Term
  | none => .normal
  | some e => .pyError e

/-- `update_page(page_id, title, body, version, ancestors, properties,
attachments)` (lines 409-490).  In order: `add_images` (uploads + `src`
rewrite), `add_attachments` (uploads), `add_local_refs` (may raise
`KeyError`/`NameError`, in which case the update PUT is never reached),
then one PUT of the full page with `version + 1` (labels ride inside that
same PUT's metadata), and — on its success — one property PUT per entry of
`properties`, each carrying the version number stored in that entry. -/
def update_page (cfg : Config) (fileExists : String → Bool)
    (apiUrl sourceFolder : String) (pageId title : String) (body : Body)
    (version : Nat) (properties : List (String × Nat × String))
    (attachments : Option (List String)) : List ApiCall × Option PyError :=
  let bodyImgs := add_images fileExists apiUrl sourceFolder pageId body
  let imgCalls := bodyImgs.2
  let attCalls := add_attachments fileExists sourceFolder pageId attachments
  match add_local_refs cfg.markdownSource cfg.version bodyImgs.1 with
  | .error e => (imgCalls ++ attCalls, some e)
  | .ok _ =>
    (imgCalls ++ attCalls ++ [.updatePage pageId (version + 1)]
      ++ properties.map (fun p => ApiCall.updateProperty pageId p.1 p.2.1),
     none)

/-- `create_page(title, body, ancestors)` (lines 312-383), success path
(HTTP 200): the server assigns `createdId` and `createdVersion`.  The
initial property dict gives every configured property version 1
(line 371).  When the posted body contains an `<img .../>` tag or an
`<a href="#...">` link, or properties, attachments or labels are
configured, `update_page` is immediately invoked on the new page
(line 375-377); otherwise no further call is made. -/
def create_page (cfg : Config) (fileExists : String → Bool)
    (apiUrl sourceFolder : String) (createdId : String)
    (createdVersion : Nat) (title : String) (body : Body) :
    List ApiCall × Option PyError :=
  let properties := cfg.properties.map (fun p => (p.1, 1, p.2))
  if !body.imgs.isEmpty || !body.links.isEmpty || !properties.isEmpty
      || truthyOptList cfg.attachments || !cfg.labels.isEmpty then
    let inner := update_page cfg fileExists apiUrl sourceFolder createdId
      title body createdVersion properties cfg.attachments
    (.createPage title :: inner.1, inner.2)
  else
    ([.createPage title], none)

/-- The property dict built in `main` for an existing page (lines 632-638):
a key present in the page's property set gets its remote version + 1, an
absent key gets version 1.  The page's own version number is not consulted. -/
def computeProperties (cfgProps : List (String × String))
    (pageProps : List (String × Nat)) : List (String × Nat × String) :=
  cfgProps.map (fun kv =>
    match pageProps.lookup kv.1 with
    | some k => (kv.1, k + 1, kv.2)
    | none => (kv.1, 1, kv.2))

/-- Ancestor resolution in `main` (lines 620-628): with no `-a` flag the
ancestor list is empty; with the flag, a found parent contributes its id
and a missing parent is a fatal `sys.exit(1)` (`none` here). -/
def resolveAncestors (cfg : Config) (parentRemote : Option PageInfo) :
    Option (List String) :=
  match cfg.ancestor with
  | none => some []
  | some _ =>
    match parentRemote with
    | some parent => some [parent.id]
    | none => none

/-- The `if page:` update branch of `main` (lines 630-640). -/
def reconcileExisting (cfg : Config) (fileExists : String → Bool)
    (apiUrl sourceFolder title : String) (body : Body) (page : PageInfo) :
    RunResult :=
  let properties := computeProperties cfg.properties page.properties
  let r := update_page cfg fileExists apiUrl sourceFolder page.id title body
    page.version properties cfg.attachments
  ⟨r.1, termOfErr r.2⟩

/-- The `else:` create branch of `main` (line 642). -/
def reconcileMissing (cfg : Config) (fileExists : String → Bool)
    (apiUrl sourceFolder title : String) (body : Body) (createdId : String)
    (createdVersion : Nat) : RunResult :=
  let r := create_page cfg fileExists apiUrl sourceFolder createdId
    createdVersion title body
  ⟨r.1, termOfErr r.2⟩

/-- `main` from the simulate check onwards (lines 609-644).  Inputs stand
for the remote state: `remote` is `get_page(title)`, `parentRemote` is
`get_page(ANCESTOR)`, and `createdId`/`createdVersion` are what the server
would assign on a create.  Literally per lines 616-618, `if DELETE and
page:` deletes and exits; when the delete flag is set but the page does
not exist, control falls through to the create/update dispatch. -/
def mainReconcile (cfg : Config) (fileExists : String → Bool)
    (apiUrl sourceFolder title : String) (body : Body)
    (remote parentRemote : Option PageInfo) (createdId : String)
    (createdVersion : Nat) : RunResult :=
  if cfg.simulate then
    ⟨[], .exited 0⟩
  else
    match remote with
    | some page =>
      if cfg.delete then
        ⟨[.deletePage page.id], .exited 1⟩
      else
        match resolveAncestors cfg parentRemote with
        | none => ⟨[], .exited 1⟩
        | some _ancestors =>
          reconcileExisting cfg fileExists apiUrl sourceFolder title body page
    | none =>
      match resolveAncestors cfg parentRemote with
      | none => ⟨[], .exited 1⟩
      | some _ancestors =>
        reconcileMissing cfg fileExists apiUrl sourceFolder title body
          createdId createdVersion

/-- Is a call the full-page update PUT? -/
def isUpdatePage : ApiCall → Bool
  | .updatePage _ _ => true
  | _ => false

/-- Is a call a property PUT for key `k`? -/
def isPropertyFor (k : String) : ApiCall → Bool
  | .updateProperty _ key _ => key = k
  | _ => false

/-- Is a call a property PUT (any key)? -/
def isPropertyCall : ApiCall → Bool
  | .updateProperty _ _ _ => true
  | _ => false

/-- Is a call the page-create POST? -/
def isCreatePage : ApiCall → Bool
  | .createPage _ => true
  | _ => false

/-! ## Helper lemmas -/

theorem strStartsWith_append (p s : String) :
    strStartsWith (p ++ s) p = true := by
  unfold strStartsWith
  rw [String.data_append, List.isPrefixOf_iff_prefix]
  exact List.prefix_append p.data s.data

theorem mem_upload_attachment {fe : String → Bool} {pid f : String}
    {c : ApiCall} (hc : c ∈ (upload_attachment fe pid f).2) :
    c = ApiCall.uploadAttachment pid (basename f) := by
  unfold upload_attachment at hc
  by_cases h1 : matchesHttp f
  · simp [h1] at hc
  · by_cases h2 : fe f
    · simpa [h1, h2] using hc
    · simp [h1, h2] at hc

theorem filter_upload_eq_nil (p : ApiCall → Bool)
    (hp : ∀ id fn, p (ApiCall.uploadAttachment id fn) = false)
    (fe : String → Bool) (pid f : String) :
    ((upload_attachment fe pid f).2).filter p = [] := by
  refine List.filter_eq_nil_iff.mpr (fun c hc => ?_)
  rw [mem_upload_attachment hc, hp]
  simp

theorem filter_add_images_eq_nil (p : ApiCall → Bool)
    (hp : ∀ id fn, p (ApiCall.uploadAttachment id fn) = false)
    (fe : String → Bool) (apiUrl sf pid : String) (b : Body) :
    ((add_images fe apiUrl sf pid b).2).filter p = [] := by
  refine List.filter_eq_nil_iff.mpr (fun c hc => ?_)
  simp only [add_images, List.mem_flatMap] at hc
  obtain ⟨rel, _, hc⟩ := hc
  rw [mem_upload_attachment hc, hp]
  simp

theorem filter_add_attachments_eq_nil (p : ApiCall → Bool)
    (hp : ∀ id fn, p (ApiCall.uploadAttachment id fn) = false)
    (fe : String → Bool) (sf pid : String) (att : Option (List String)) :
    (add_attachments fe sf pid att).filter p = [] := by
  refine List.filter_eq_nil_iff.mpr (fun c hc => ?_)
  match att with
  | none => simp [add_attachments] at hc
  | some fs =>
    simp only [add_attachments, List.mem_flatMap] at hc
    obtain ⟨f, _, hc⟩ := hc
    rw [mem_upload_attachment hc, hp]
    simp

theorem filter_property_map_eq_nil (p : ApiCall → Bool)
    (hp : ∀ id k n, p (ApiCall.updateProperty id k n) = false)
    (pid : String) (props : List (String × Nat × String)) :
    ((props.map (fun q => ApiCall.updateProperty pid q.1 q.2.1)).filter p)
      = [] := by
  refine List.filter_eq_nil_iff.mpr (fun c hc => ?_)
  rw [List.mem_map] at hc
  obtain ⟨q, _, rfl⟩ := hc
  rw [hp]
  simp

/-- With the hypotheses that the run is real work (not simulate), not a
delete, has no ancestor flag, and the local-reference pass resolves, the
update branch of the reconciler issues exactly the image uploads, the
attachment uploads, one full-page PUT with version + 1, and one property
PUT per computed property. -/
theorem reconcileExisting_eq (cfg : Config) (fe : String → Bool)
    (apiUrl sf title : String) (body : Body) (page : PageInfo)
    (ls : List Link)
    (hl : add_local_refs_links cfg.markdownSource cfg.version body.headers
      body.links = Except.ok ls) :
    reconcileExisting cfg fe apiUrl sf title body page =
      ⟨(add_images fe apiUrl sf page.id body).2
        ++ add_attachments fe sf page.id cfg.attachments
        ++ [ApiCall.updatePage page.id (page.version + 1)]
        ++ (computeProperties cfg.properties page.properties).map
            (fun q => ApiCall.updateProperty page.id q.1 q.2.1),
       Term.normal⟩ := by
  unfold reconcileExisting update_page add_local_refs
  simp only [add_images]
  rw [hl]
  simp [termOfErr, add_images, Except.map]

theorem mainReconcile_present (cfg : Config) (fe : String → Bool)
    (apiUrl sf title : String) (body : Body) (pi : PageInfo)
    (pr : Option PageInfo) (cid : String) (cv : Nat)
    (hs : cfg.simulate = false) (hd : cfg.delete = false)
    (ha : cfg.ancestor = none) :
    mainReconcile cfg fe apiUrl sf title body (some pi) pr cid cv =
      reconcileExisting cfg fe apiUrl sf title body pi := by
  simp [mainReconcile, resolveAncestors, hs, hd, ha]

theorem mainReconcile_absent (cfg : Config) (fe : String → Bool)
    (apiUrl sf title : String) (body : Body) (pr : Option PageInfo)
    (cid : String) (cv : Nat)
    (hs : cfg.simulate = false) (ha : cfg.ancestor = none) :
    mainReconcile cfg fe apiUrl sf title body none pr cid cv =
      reconcileMissing cfg fe apiUrl sf title body cid cv := by
  simp [mainReconcile, resolveAncestors, hs, ha]

/-! ## Claims -/

/-- C1: the claim says a delete run on a non-existent page is a no-op (no
page created, updated, or deleted).  Evaluating the reconciler at such an
input shows the contrary: with the delete flag set and the title lookup
returning nothing, control falls through `if DELETE and page:`
(md2conf.py line 616) into the create/update dispatch and a page-create
call is issued.  (For contrast, the same run with the page present issues
exactly the delete call and terminates, as the claim's first half says.) -/
theorem delete_flag_falls_through_to_create :
    mainReconcile ⟨true, false, none, [], none, [], "", 1⟩ (fun _ => false)
        "https://example.atlassian.net/wiki" "/docs" "Title" ⟨[], [], []⟩
        none none "101" 1
      = ⟨[ApiCall.createPage "Title"], Term.normal⟩
    ∧ mainReconcile ⟨true, false, none, [], none, [], "", 1⟩ (fun _ => false)
        "https://example.atlassian.net/wiki" "/docs" "Title" ⟨[], [], []⟩
        (some ⟨"42", 3, []⟩) none "101" 1
      = ⟨[ApiCall.deletePage "42"], Term.exited 1⟩ :=
  ⟨rfl, rfl⟩

/-- C4: under the bitbucket dialect (prefix `#markdown-header-`, postfix
`_%d`), duplicate headings get distinct anchor keys: for headings
`["Setup", "Setup"]` the second heading's key carries the `_1` suffix from
the per-key collision counter, differs from the first's key, and maps to
the suffixed fragment value `Setup.1`; a link targeting that suffixed key
resolves (the full pass succeeds and rewrites it). -/
theorem bitbucket_duplicate_heading_suffix :
    ref_prefixes.lookup "bitbucket" = some "#markdown-header-"
    ∧ ref_postfixes.lookup "bitbucket" = some "_%d"
    ∧ buildHeadersMap "#markdown-header-" "_%d" 1 ["Setup", "Setup"] [] []
        = Except.ok
            ([("#markdown-header-setup", "Setup"),
              ("#markdown-header-setup_1", "Setup.1")],
             [("#markdown-header-setup", 2)])
    ∧ ("#markdown-header-setup_1" ≠ "#markdown-header-setup")
    ∧ List.lookup "#markdown-header-setup_1"
        [("#markdown-header-setup", "Setup"),
         ("#markdown-header-setup_1", "Setup.1")] = some "Setup.1"
    ∧ add_local_refs_links "bitbucket" 1 ["Setup", "Setup"]
        [⟨"#markdown-header-setup_1", "go"⟩] = Except.ok [] :=
  ⟨rfl, rfl, rfl, by decide, rfl, rfl⟩

/-- C5 counterexample: the claim — every intra-document link whose anchor
is not in the heading-derived mapping makes the pass fail with a lookup
error — is false when the document has no headings: `if headers:`
(md2conf.py line 266) skips all link processing, so a link with an
unresolvable anchor (here `#missing`, while the mapping is empty) is left
in place and the pass succeeds. -/
theorem unresolved_anchor_no_headings_counterexample :
    add_local_refs_links "bitbucket" 1 [] [⟨"#missing", "x"⟩]
      = Except.ok [⟨"#missing", "x"⟩] :=
  rfl

/-- If some link's target anchor is not a key of the map, the link loop
raises `KeyError`. -/
theorem resolveLinks_error {m : List (String × String)} {links : List Link}
    {l : Link} (hl : l ∈ links) (hmiss : m.lookup l.ref = none) :
    resolveLinks m links = Except.error PyError.keyError := by
  induction links with
  | nil => exact absurd hl (List.not_mem_nil l)
  | cons x rest ih =>
    unfold resolveLinks
    rcases List.mem_cons.mp hl with rfl | hmem
    · rw [hmiss]
    · have h2 := ih hmem
      split
      · rfl
      · rename_i v hx
        by_cases hv : v ≠ ""
        · rw [if_pos hv]
          exact h2
        · rw [if_neg hv, h2]
          rfl

/-- C5 (amended): with a recognized dialect, provided the document has at
least one heading and the heading map is built (which pins the page
version format to 1 or 2), any intra-document link whose target anchor is
not a key of the heading-derived mapping makes the pass fail with a
lookup error (`headers_map[ref]`, md2conf.py line 297). -/
theorem unresolved_anchor_lookup_error (version : Int)
    (headers : List String) (links : List Link) (l : Link)
    (m : List (String × String)) (c : List (String × Nat))
    (hh : headers ≠ [])
    (hm : buildHeadersMap "#markdown-header-" "_%d" version headers [] []
      = Except.ok (m, c))
    (hl : l ∈ links) (hmiss : m.lookup l.ref = none) :
    add_local_refs_links "bitbucket" version headers links
      = Except.error PyError.keyError := by
  unfold add_local_refs_links
  have hne : headers.isEmpty = false := by
    cases headers with
    | nil => exact absurd rfl hh
    | cons a t => rfl
  simp only [ref_prefixes, ref_postfixes, List.lookup, hne]
  norm_num
  rw [hm]
  exact resolveLinks_error hl hmiss

/-- C5 amended witness: headings `["Intro"]` with a link to `#missing`. -/
theorem unresolved_anchor_lookup_error_witness :
    add_local_refs_links "bitbucket" 1 ["Intro"] [⟨"#missing", "x"⟩]
      = Except.error PyError.keyError :=
  unresolved_anchor_lookup_error 1 ["Intro"] [⟨"#missing", "x"⟩]
    ⟨"#missing", "x"⟩ [("#markdown-header-intro", "Intro")]
    [("#markdown-header-intro", 1)] (by decide) rfl
    (List.mem_singleton.mpr rfl) rfl

/-- C7: each of the three credential/organisation settings is resolved by
`os.getenv(VAR, flag)` (md2conf.py lines 85-87): when the environment
variable is set, its value is used and the CLI flag has no effect
whatsoever; the flag's value is used exactly when the variable is unset. -/
theorem env_vars_take_precedence_over_flags (v : String)
    (eU eK eO : Option String) (args args2 : CredArgs) :
    (USERNAME ⟨some v, eK, eO⟩ args = some v
      ∧ USERNAME ⟨some v, eK, eO⟩ args = USERNAME ⟨some v, eK, eO⟩ args2
      ∧ USERNAME ⟨none, eK, eO⟩ args = args.username)
    ∧ (API_KEY ⟨eU, some v, eO⟩ args = some v
      ∧ API_KEY ⟨eU, some v, eO⟩ args = API_KEY ⟨eU, some v, eO⟩ args2
      ∧ API_KEY ⟨eU, none, eO⟩ args = args.apikey)
    ∧ (ORGNAME ⟨eU, eK, some v⟩ args = some v
      ∧ ORGNAME ⟨eU, eK, some v⟩ args = ORGNAME ⟨eU, eK, some v⟩ args2
      ∧ ORGNAME ⟨eU, eK, none⟩ args = args.orgname) :=
  ⟨⟨rfl, rfl, rfl⟩, ⟨rfl, rfl, rfl⟩, ⟨rfl, rfl, rfl⟩⟩

/-- C9: the no-SSL toggle has no effect on the computed base API URL: for
every organisation name and either state of the toggle, the URL begins
with `https://`, because the result of the `https://`-to-`http://`
replacement at md2conf.py line 127 is discarded, not assigned. -/
theorem nossl_toggle_ineffective_url_stays_https (orgname : String)
    (nossl : Bool) :
    strStartsWith (CONFLUENCE_API_URL orgname nossl) "https://" = true := by
  unfold CONFLUENCE_API_URL
  cases hdot : orgname.contains '.' <;> cases nossl <;>
    simp only [if_true, if_false] <;>
    exact strStartsWith_append "https://" _

/-- C10: `upload_attachment` returns `False` and issues no call for every
file path containing the substring `http` anywhere — the guard at
md2conf.py line 528 is `re.search('http.*', file)`, a substring match, not
a URL-scheme check — regardless of whether the path names an existing
local file (`fileExists` is arbitrary). -/
theorem http_substring_path_never_uploaded (fe : String → Bool)
    (pid file : String) (hh : matchesHttp file = true) :
    upload_attachment fe pid file = (false, []) := by
  unfold upload_attachment
  rw [hh]
  simp

/-- C10 witness: `/srv/http/readme.md` contains `http` as a substring and
exists on disk (`fileExists` constantly true), yet is skipped. -/
theorem http_substring_path_never_uploaded_witness :
    matchesHttp "/srv/http/readme.md" = true
    ∧ upload_attachment (fun _ => true) "1" "/srv/http/readme.md"
        = (false, []) :=
  ⟨by decide,
   http_substring_path_never_uploaded (fun _ => true) "1" "/srv/http/readme.md"
     (by decide)⟩

/-! ## Further helper lemmas, for the update/create-path claims -/

theorem map_isEmpty {α β : Type} (f : α → β) (l : List α) :
    (l.map f).isEmpty = l.isEmpty := by
  cases l <;> rfl

/-- `update_page` when the local-reference pass succeeds on the body:
image uploads, attachment uploads, the one page PUT with `version + 1`,
then the property PUTs, and no exception. -/
theorem update_page_ok (cfg : Config) (fe : String → Bool)
    (apiUrl sf pid title : String) (body : Body) (v : Nat)
    (props : List (String × Nat × String)) (att : Option (List String))
    (ls : List Link)
    (hl : add_local_refs_links cfg.markdownSource cfg.version body.headers
      body.links = Except.ok ls) :
    update_page cfg fe apiUrl sf pid title body v props att =
      ((add_images fe apiUrl sf pid body).2 ++ add_attachments fe sf pid att
        ++ [ApiCall.updatePage pid (v + 1)]
        ++ props.map (fun q => ApiCall.updateProperty pid q.1 q.2.1),
       none) := by
  unfold update_page add_local_refs
  simp only [add_images]
  rw [hl]
  simp [Except.map, add_images]

/-- Every entry of `computeProperties` keeps the key of the configured
property it came from. -/
theorem computeProperties_fst {c : List (String × String)}
    {ps : List (String × Nat)} {q : String × Nat × String}
    (hq : q ∈ computeProperties c ps) : q.1 ∈ c.map Prod.fst := by
  unfold computeProperties at hq
  rw [List.mem_map] at hq
  obtain ⟨kv, hkv, rfl⟩ := hq
  rw [List.mem_map]
  refine ⟨kv, hkv, ?_⟩
  cases h : ps.lookup kv.1 <;> simp [h]

theorem filter_propertyFor_not_mem (pid k : String)
    (ps : List (String × Nat)) (c : List (String × String))
    (hk : k ∉ c.map Prod.fst) :
    (((computeProperties c ps).map
        (fun q => ApiCall.updateProperty pid q.1 q.2.1)).filter
      (isPropertyFor k)) = [] := by
  refine List.filter_eq_nil_iff.mpr (fun x hx => ?_)
  rw [List.mem_map] at hx
  obtain ⟨q, hq, rfl⟩ := hx
  have hmem := computeProperties_fst hq
  simp only [isPropertyFor, decide_eq_true_eq]
  intro h
  exact hk (h ▸ hmem)

theorem computeProperties_cons (kv : String × String)
    (rest : List (String × String)) (ps : List (String × Nat)) :
    computeProperties (kv :: rest) ps =
      (kv.1,
        (match ps.lookup kv.1 with
         | some n => n + 1
         | none => 1), kv.2)
        :: computeProperties rest ps := by
  unfold computeProperties
  rw [List.map_cons]
  cases h : ps.lookup kv.1 <;> simp [h]

/-- With distinct configured keys, the property PUTs carry, for key `k`,
exactly one call whose version is `K + 1` when the page holds `k` at
remote version `K` and `1` when it does not. -/
theorem filter_propertyFor_computeProperties (pid k : String)
    (ps : List (String × Nat)) :
    ∀ c : List (String × String), (c.map Prod.fst).Nodup →
      k ∈ c.map Prod.fst →
      (((computeProperties c ps).map
          (fun q => ApiCall.updateProperty pid q.1 q.2.1)).filter
        (isPropertyFor k))
        = [ApiCall.updateProperty pid k
            (match ps.lookup k with
             | some n => n + 1
             | none => 1)] := by
  intro c
  induction c with
  | nil =>
    intro _ hk
    simp at hk
  | cons kv rest ih =>
    intro hnd hk
    rw [List.map_cons] at hnd
    have hnd1 := List.nodup_cons.mp hnd
    rw [computeProperties_cons, List.map_cons, List.filter_cons]
    by_cases hkk : kv.1 = k
    · have hrest : k ∉ rest.map Prod.fst := hkk ▸ hnd1.1
      rw [if_pos (by simp [isPropertyFor, hkk]),
        filter_propertyFor_not_mem pid k ps rest hrest, hkk]
    · rw [if_neg (by simp [isPropertyFor, hkk])]
      apply ih hnd1.2
      rw [List.map_cons] at hk
      rcases List.mem_cons.mp hk with h | h
      · exact absurd h.symm hkk
      · exact h

theorem filter_propertyCall_map (pid : String)
    (props : List (String × Nat × String)) :
    ((props.map (fun q => ApiCall.updateProperty pid q.1 q.2.1)).filter
        isPropertyCall)
      = props.map (fun q => ApiCall.updateProperty pid q.1 q.2.1) := by
  refine List.filter_eq_self.mpr (fun c hc => ?_)
  rw [List.mem_map] at hc
  obtain ⟨q, _, rfl⟩ := hc
  rfl

/-! ## Claims on the update/create paths -/

/-- C2: for a page that exists remotely with current version `N` (and a
run that is not simulate/delete, has no ancestor flag, and whose
local-reference pass resolves), one run of the reconciler issues exactly
one page-update call, and it carries version `N + 1`
(md2conf.py lines 447-448, 630-640). -/
theorem existing_page_single_update_version_succ
    (cfg : Config) (fe : String → Bool) (apiUrl sf title : String)
    (body : Body) (pi : PageInfo) (pr : Option PageInfo) (cid : String)
    (cv : Nat) (ls : List Link)
    (hs : cfg.simulate = false) (hd : cfg.delete = false)
    (ha : cfg.ancestor = none)
    (hl : add_local_refs_links cfg.markdownSource cfg.version body.headers
      body.links = Except.ok ls) :
    ((mainReconcile cfg fe apiUrl sf title body (some pi) pr cid
          cv).calls.filter isUpdatePage)
      = [ApiCall.updatePage pi.id (pi.version + 1)]
    ∧ (mainReconcile cfg fe apiUrl sf title body (some pi) pr cid cv).term
      = Term.normal := by
  rw [mainReconcile_present cfg fe apiUrl sf title body pi pr cid cv hs hd ha,
    reconcileExisting_eq cfg fe apiUrl sf title body pi ls hl]
  refine ⟨?_, rfl⟩
  simp only [List.filter_append,
    filter_add_images_eq_nil isUpdatePage (fun _ _ => rfl),
    filter_add_attachments_eq_nil isUpdatePage (fun _ _ => rfl),
    filter_property_map_eq_nil isUpdatePage (fun _ _ _ => rfl)]
  simp [isUpdatePage]

/-- C2 witness: a page at version 7 gets exactly one update PUT with
version 8. -/
theorem existing_page_single_update_version_succ_witness :
    ((mainReconcile ⟨false, false, none, [], none, [], "", 1⟩
          (fun _ => false) "https://x" "/s" "T" ⟨[], [], []⟩
          (some ⟨"42", 7, []⟩) none "9" 1).calls.filter isUpdatePage)
      = [ApiCall.updatePage "42" 8]
    ∧ (mainReconcile ⟨false, false, none, [], none, [], "", 1⟩
          (fun _ => false) "https://x" "/s" "T" ⟨[], [], []⟩
          (some ⟨"42", 7, []⟩) none "9" 1).term
      = Term.normal :=
  existing_page_single_update_version_succ
    ⟨false, false, none, [], none, [], "", 1⟩ (fun _ => false) "https://x"
    "/s" "T" ⟨[], [], []⟩ ⟨"42", 7, []⟩ none "9" 1 [] rfl rfl rfl rfl

/-- C3: for every configured content property, the version number in its
property PUT is 1 when the key is absent from the existing page's
property set and `K + 1` when the key is present at remote version `K`
(md2conf.py lines 632-638); and the page's own version number plays no
role: changing it leaves the property PUTs unchanged. -/
theorem property_update_version_rule
    (cfg : Config) (fe : String → Bool) (apiUrl sf title : String)
    (body : Body) (pi : PageInfo) (pr : Option PageInfo) (cid : String)
    (cv : Nat) (ls : List Link)
    (hs : cfg.simulate = false) (hd : cfg.delete = false)
    (ha : cfg.ancestor = none)
    (hnd : (cfg.properties.map Prod.fst).Nodup)
    (hl : add_local_refs_links cfg.markdownSource cfg.version body.headers
      body.links = Except.ok ls) :
    (∀ kv ∈ cfg.properties,
      ((mainReconcile cfg fe apiUrl sf title body (some pi) pr cid
            cv).calls.filter (isPropertyFor kv.1))
        = [ApiCall.updateProperty pi.id kv.1
            (match pi.properties.lookup kv.1 with
             | some k => k + 1
             | none => 1)])
    ∧ ∀ v2 : Nat,
        ((mainReconcile cfg fe apiUrl sf title body
              (some ⟨pi.id, v2, pi.properties⟩) pr cid cv).calls.filter
          isPropertyCall)
          = ((mainReconcile cfg fe apiUrl sf title body (some pi) pr cid
                cv).calls.filter isPropertyCall) := by
  constructor
  · intro kv hkv
    rw [mainReconcile_present cfg fe apiUrl sf title body pi pr cid cv hs hd
      ha, reconcileExisting_eq cfg fe apiUrl sf title body pi ls hl]
    simp only [List.filter_append,
      filter_add_images_eq_nil (isPropertyFor kv.1) (fun _ _ => rfl),
      filter_add_attachments_eq_nil (isPropertyFor kv.1) (fun _ _ => rfl)]
    rw [filter_propertyFor_computeProperties pi.id kv.1 pi.properties
      cfg.properties hnd
      (List.mem_map.mpr ⟨kv, hkv, rfl⟩)]
    simp [isPropertyFor]
  · intro v2
    rw [mainReconcile_present cfg fe apiUrl sf title body pi pr cid cv hs hd
      ha,
      mainReconcile_present cfg fe apiUrl sf title body ⟨pi.id, v2,
        pi.properties⟩ pr cid cv hs hd ha,
      reconcileExisting_eq cfg fe apiUrl sf title body pi ls hl,
      reconcileExisting_eq cfg fe apiUrl sf title body ⟨pi.id, v2,
        pi.properties⟩ ls hl]
    simp only [List.filter_append,
      filter_add_images_eq_nil isPropertyCall (fun _ _ => rfl),
      filter_add_attachments_eq_nil isPropertyCall (fun _ _ => rfl),
      filter_propertyCall_map]
    simp [isPropertyCall]

/-- C3 witness: with configured properties `k1`, `k2` and the page holding
`k1` at remote version 5, the PUT for `k1` carries 6 and the PUT for `k2`
carries 1. -/
theorem property_update_version_rule_witness :
    ((mainReconcile ⟨false, false, none, [("k1", "v1"), ("k2", "v2")],
          none, [], "", 1⟩ (fun _ => false) "https://x" "/s" "T"
          ⟨[], [], []⟩ (some ⟨"42", 7, [("k1", 5)]⟩) none "9" 1).calls.filter
      (isPropertyFor "k1"))
      = [ApiCall.updateProperty "42" "k1" 6]
    ∧ ((mainReconcile ⟨false, false, none, [("k1", "v1"), ("k2", "v2")],
          none, [], "", 1⟩ (fun _ => false) "https://x" "/s" "T"
          ⟨[], [], []⟩ (some ⟨"42", 7, [("k1", 5)]⟩) none "9" 1).calls.filter
      (isPropertyFor "k2"))
      = [ApiCall.updateProperty "42" "k2" 1] :=
  ⟨(property_update_version_rule
      ⟨false, false, none, [("k1", "v1"), ("k2", "v2")], none, [], "", 1⟩
      (fun _ => false) "https://x" "/s" "T" ⟨[], [], []⟩
      ⟨"42", 7, [("k1", 5)]⟩ none "9" 1 [] rfl rfl rfl (by decide) rfl).1
      ("k1", "v1") (by decide),
    (property_update_version_rule
      ⟨false, false, none, [("k1", "v1"), ("k2", "v2")], none, [], "", 1⟩
      (fun _ => false) "https://x" "/s" "T" ⟨[], [], []⟩
      ⟨"42", 7, [("k1", 5)]⟩ none "9" 1 [] rfl rfl rfl (by decide) rfl).1
      ("k2", "v2") (by decide)⟩

/-- C6: after a successful page create, exactly one follow-up update PUT
is issued when the created body contains an image tag or an
intra-document anchor link, or the configuration has properties,
attachments or labels (md2conf.py lines 373-377); otherwise no update
call is made — and in either case exactly one create call is issued. -/
theorem create_followup_update_iff_needed
    (cfg : Config) (fe : String → Bool) (apiUrl sf title : String)
    (body : Body) (pr : Option PageInfo) (cid : String) (cv : Nat)
    (ls : List Link)
    (hs : cfg.simulate = false) (ha : cfg.ancestor = none)
    (hl : add_local_refs_links cfg.markdownSource cfg.version body.headers
      body.links = Except.ok ls) :
    ((mainReconcile cfg fe apiUrl sf title body none pr cid
          cv).calls.filter isUpdatePage)
      = (if !body.imgs.isEmpty || !body.links.isEmpty
            || !cfg.properties.isEmpty || truthyOptList cfg.attachments
            || !cfg.labels.isEmpty
         then [ApiCall.updatePage cid (cv + 1)]
         else [])
    ∧ ((mainReconcile cfg fe apiUrl sf title body none pr cid
          cv).calls.filter isCreatePage)
      = [ApiCall.createPage title] := by
  rw [mainReconcile_absent cfg fe apiUrl sf title body pr cid cv hs ha]
  unfold reconcileMissing create_page
  simp only [map_isEmpty]
  by_cases hcond : (!body.imgs.isEmpty || !body.links.isEmpty
      || !cfg.properties.isEmpty || truthyOptList cfg.attachments
      || !cfg.labels.isEmpty) = true
  · rw [if_pos hcond, if_pos hcond,
      update_page_ok cfg fe apiUrl sf cid title body cv
        (cfg.properties.map fun p => (p.1, 1, p.2)) cfg.attachments ls hl]
    constructor
    · simp only [List.filter_cons, List.filter_append,
        filter_add_images_eq_nil isUpdatePage (fun _ _ => rfl),
        filter_add_attachments_eq_nil isUpdatePage (fun _ _ => rfl),
        filter_property_map_eq_nil isUpdatePage (fun _ _ _ => rfl)]
      simp [isUpdatePage]
    · simp only [List.filter_cons, List.filter_append,
        filter_add_images_eq_nil isCreatePage (fun _ _ => rfl),
        filter_add_attachments_eq_nil isCreatePage (fun _ _ => rfl),
        filter_property_map_eq_nil isCreatePage (fun _ _ _ => rfl)]
      simp [isCreatePage]
  · rw [if_neg hcond, if_neg hcond]
    exact ⟨rfl, rfl⟩

/-- C6 witness: with a configured label and an otherwise empty body and
configuration, the create is followed by exactly one update PUT; the
update carries the server-assigned version + 1. -/
theorem create_followup_update_iff_needed_witness :
    ((mainReconcile ⟨false, false, none, [], none, ["lab"], "", 1⟩
          (fun _ => false) "https://x" "/s" "T" ⟨[], [], []⟩ none none "9"
          1).calls.filter isUpdatePage)
      = [ApiCall.updatePage "9" 2]
    ∧ ((mainReconcile ⟨false, false, none, [], none, ["lab"], "", 1⟩
          (fun _ => false) "https://x" "/s" "T" ⟨[], [], []⟩ none none "9"
          1).calls.filter isCreatePage)
      = [ApiCall.createPage "T"] :=
  create_followup_update_iff_needed
    ⟨false, false, none, [], none, ["lab"], "", 1⟩ (fun _ => false)
    "https://x" "/s" "T" ⟨[], [], []⟩ none "9" 1 [] rfl rfl rfl

/-- C8: an attachment whose local path does not exist on disk (and is not
caught by the remote-URL guard) is logged and skipped — the uploader
returns `False` and issues no call (md2conf.py lines 534-536) — and the
overall run still completes normally, with the page update PUT issued:
the run's outcome holds for an arbitrary `fileExists`, in particular one
on which the configured attachment files are missing. -/
theorem missing_attachment_skipped_run_continues
    (fe : String → Bool) (pid file : String)
    (hh : matchesHttp file = false) (hmiss : fe file = false)
    (cfg : Config) (apiUrl sf title : String) (body : Body) (pi : PageInfo)
    (pr : Option PageInfo) (cid : String) (cv : Nat) (ls : List Link)
    (hs : cfg.simulate = false) (hd : cfg.delete = false)
    (ha : cfg.ancestor = none)
    (hl : add_local_refs_links cfg.markdownSource cfg.version body.headers
      body.links = Except.ok ls) :
    upload_attachment fe pid file = (false, [])
    ∧ (mainReconcile cfg fe apiUrl sf title body (some pi) pr cid cv).term
      = Term.normal
    ∧ ApiCall.updatePage pi.id (pi.version + 1)
        ∈ (mainReconcile cfg fe apiUrl sf title body (some pi) pr cid
            cv).calls := by
  refine ⟨?_, ?_, ?_⟩
  · unfold upload_attachment
    rw [hh, hmiss]
    simp
  · rw [mainReconcile_present cfg fe apiUrl sf title body pi pr cid cv hs hd
      ha, reconcileExisting_eq cfg fe apiUrl sf title body pi ls hl]
  · rw [mainReconcile_present cfg fe apiUrl sf title body pi pr cid cv hs hd
      ha, reconcileExisting_eq cfg fe apiUrl sf title body pi ls hl]
    simp

/-- C8 witness: the configured attachment `a.png` is missing from disk
(`fileExists` constantly false): it is skipped with no upload call, and
the run still ends normally with the page update PUT issued. -/
theorem missing_attachment_skipped_run_continues_witness :
    upload_attachment (fun _ => false) "42" "a.png" = (false, [])
    ∧ (mainReconcile ⟨false, false, none, [], some ["a.png"], [], "", 1⟩
          (fun _ => false) "https://x" "/s" "T" ⟨[], [], []⟩
          (some ⟨"42", 7, []⟩) none "9" 1).term
      = Term.normal
    ∧ ApiCall.updatePage "42" 8
        ∈ (mainReconcile ⟨false, false, none, [], some ["a.png"], [], "",
              1⟩ (fun _ => false) "https://x" "/s" "T" ⟨[], [], []⟩
            (some ⟨"42", 7, []⟩) none "9" 1).calls :=
  missing_attachment_skipped_run_continues (fun _ => false) "42" "a.png"
    (by decide) rfl ⟨false, false, none, [], some ["a.png"], [], "", 1⟩
    "https://x" "/s" "T" ⟨[], [], []⟩ ⟨"42", 7, []⟩ none "9" 1 [] rfl rfl
    rfl rfl

end Md2Conf
